import Mathlib

/-!
# Verification of the ERDOS per-node runtime (node bootstrap and orchestration)

A shallow embedding of `src/node/node.rs` and `src/communication/errors.rs`
from the `erdos` repository, together with theorems settling the claims about
the node startup protocol (Phase B/E/G barriers), the supervision logic of
`async_run`, the `NodeHandle` control surface and the error conversions of the
communication layer.

Modelling conventions:
* `NodeId = usize` becomes `Nat`; operator ids (`Uuid` in the source) become `Nat`.
* Rust `HashSet` becomes `Finset Nat` (only cardinality and membership matter).
* An `async` loop that repeatedly awaits a channel is embedded as a structural
  recursion over the finite list of values the channel yields; exhausting the
  list models the loop still blocking (never returning).
* Payloads of error variants that the claims never inspect (`io::Error`,
  `bincode::Error`, ...) are erased.
-/

/-- `pub type NodeId = usize;` (node.rs). -/
abbrev NodeId := Nat

/-- Operator identifier (a `Uuid` in the source, abstracted to `Nat`). -/
abbrev OperatorId := Nat

/-- `CommunicationError` from `src/communication/errors.rs` (payloads erased,
`cfg`-gated zenoh/shared-memory variants omitted as they are feature-disabled
for the tcp transport). -/
inductive CommunicationError where
  | NoCapacity
  | Disconnected
  | SerializeNotImplemented
  | DeserializeNotImplemented
  | AbomonationError
  | BincodeError
  | IoError
  deriving DecidableEq, Repr

/-- `tokio::sync::mpsc::error::TrySendError<T>`: the failed `try_send` returns
the unsent value, the channel was either full or closed. -/
inductive TrySendError (T : Type) where
  | Full (val : T)
  | Closed (val : T)
  deriving DecidableEq, Repr

/-- `tokio::sync::mpsc::error::SendError<T>` (a blocking send fails only when
the channel is closed; the unsent value is returned). -/
structure SendError (T : Type) where
  val : T
  deriving DecidableEq, Repr

/-- `std::sync::mpsc::SendError<T>`. -/
structure StdSendError (T : Type) where
  val : T
  deriving DecidableEq, Repr

/-- `impl<T> From<mpsc::error::TrySendError<T>> for CommunicationError`
(errors.rs lines 55-62): `Closed ↦ Disconnected`, `Full ↦ NoCapacity`. -/
def CommunicationError.from_try_send_error {T : Type} :
    TrySendError T → CommunicationError
  | TrySendError.Closed _ => CommunicationError.Disconnected
  | TrySendError.Full _ => CommunicationError.NoCapacity

/-- `impl<T> From<mpsc::error::SendError<T>> for CommunicationError`
(errors.rs lines 49-53): always `Disconnected`. -/
def CommunicationError.from_send_error {T : Type} (_e : SendError T) :
    CommunicationError :=
  CommunicationError.Disconnected

/-- `impl<T> From<std::sync::mpsc::SendError<T>> for CommunicationError`
(errors.rs lines 43-47): always `Disconnected`. -/
def CommunicationError.from_std_send_error {T : Type} (_e : StdSendError T) :
    CommunicationError :=
  CommunicationError.Disconnected

/-- Whether a `TrySendError` is the `Full` variant. -/
def TrySendError.isFull {T : Type} : TrySendError T → Bool
  | TrySendError.Full _ => true
  | TrySendError.Closed _ => false

/-- Whether a `TrySendError` is the `Closed` variant. -/
def TrySendError.isClosed {T : Type} : TrySendError T → Bool
  | TrySendError.Full _ => false
  | TrySendError.Closed _ => true

/-!
## The shutdown channel and `NodeHandle`

`Node::new` creates `mpsc::channel(1)`; `NodeHandle::shutdown` does
`self.shutdown_tx.try_send(()).ok();` followed by a join of the node thread.
We model the capacity-1 channel by how a `try_send` of `()` can go: the buffer
is empty, the buffer already holds a value, or the receiver is dropped.
-/

/-- State of the capacity-1 shutdown channel as seen by `try_send`. -/
inductive ShutdownChannel where
  /-- buffer empty, receiver alive: a `try_send` succeeds. -/
  | empty
  /-- buffer already holds the one value: `try_send` fails with `Full`. -/
  | occupied
  /-- receiver dropped: `try_send` fails with `Closed`. -/
  | closed
  deriving DecidableEq, Repr

/-- `try_send(())` on the capacity-1 channel: returns the channel state after
the call and the result of the call. -/
def ShutdownChannel.try_send :
    ShutdownChannel → ShutdownChannel × Except (TrySendError Unit) Unit
  | ShutdownChannel.empty => (ShutdownChannel.occupied, Except.ok ())
  | ShutdownChannel.occupied =>
      (ShutdownChannel.occupied, Except.error (TrySendError.Full ()))
  | ShutdownChannel.closed =>
      (ShutdownChannel.closed, Except.error (TrySendError.Closed ()))

/-- Result of `thread::JoinHandle::join`: `Ok` when the node thread exited
normally, `Err` (with the panic payload, abstracted to `String`) when it
panicked. -/
abbrev ThreadJoinResult := Except String Unit

/-- `NodeHandle::shutdown` (node.rs lines 693-697): perform
`shutdown_tx.try_send(()).ok()` — discarding any send error — then join the
node thread, mapping a panic payload to a `String` error. Returns the channel
state after the call together with the result of `shutdown`. -/
def NodeHandle.shutdown (ch : ShutdownChannel) (join_result : ThreadJoinResult) :
    ShutdownChannel × Except String Unit :=
  let sent := ch.try_send
  (sent.1, join_result)

/-- `NodeHandle::join` (node.rs lines 689-691). -/
def NodeHandle.join (join_result : ThreadJoinResult) : Except String Unit :=
  join_result

/-!
## Control messages and configuration
-/

/-- The `ControlMessage` enum, with the variants used by `node.rs` and listed
in the control-message alphabet of the design. -/
inductive ControlMessage where
  | AllOperatorsInitializedOnNode (node_id : NodeId)
  | OperatorInitialized (op_id : OperatorId)
  | RunOperator (op_id : OperatorId)
  | ControlSenderInitialized (node_id : NodeId)
  | ControlReceiverInitialized (node_id : NodeId)
  | DataSenderInitialized (node_id : NodeId)
  | DataReceiverInitialized (node_id : NodeId)
  deriving DecidableEq, Repr

/-- `Configuration` as read by `node.rs`: `index`, the two parallel address
vectors, the worker-thread count and the optional DOT dump file name (the
logger is erased). Addresses are abstracted to `String`. -/
structure Configuration where
  index : NodeId
  control_addresses : List String
  data_addresses : List String
  num_worker_threads : Nat
  graph_filename : Option String
  deriving DecidableEq, Repr

/-- The fields of `Node` that the startup protocol reads: its configuration
and its id (channels, registries and the control handler live behind the
functions modelled below; the `initialized` latch starts `false`). -/
structure Node where
  config : Configuration
  id : NodeId
  initialized : Bool
  deriving DecidableEq, Repr

/-- `Node::new` (node.rs lines 93-108): `id = config.index`, the latch starts
out `false`; no field of the configuration is validated. -/
def Node.new (config : Configuration) : Node :=
  { config := config, id := config.index, initialized := false }

/-!
## Phase B — `wait_for_communication_layer_initialized` (node.rs 294-333)

The loop's four `HashSet`s become four `Finset Nat`. The successive results of
`control_handler.read_sender_or_receiver_initialized()` are an input list;
exhausting the list models the loop blocking forever. The `_ => unreachable!()`
arm becomes the distinguished outcome `panicked`.
-/

/-- The four node-id sets maintained by the Phase B barrier loop. -/
structure PhaseBState where
  control_senders_initialized : Finset Nat
  control_receivers_initialized : Finset Nat
  data_senders_initialized : Finset Nat
  data_receivers_initialized : Finset Nat
  deriving DecidableEq

/-- The initial Phase B state: each of the four sets seeded with `self.id`. -/
def PhaseBState.init (self_id : NodeId) : PhaseBState :=
  { control_senders_initialized := {self_id}
    control_receivers_initialized := {self_id}
    data_senders_initialized := {self_id}
    data_receivers_initialized := {self_id} }

/-- Negation of the `while` condition of the barrier loop: none of the four
sets still has fewer than `num_nodes` elements. -/
def PhaseBState.complete (st : PhaseBState) (num_nodes : Nat) : Bool :=
  num_nodes ≤ st.control_senders_initialized.card &&
  num_nodes ≤ st.control_receivers_initialized.card &&
  num_nodes ≤ st.data_senders_initialized.card &&
  num_nodes ≤ st.data_receivers_initialized.card

/-- The `match msg` body of the barrier loop: insert the reported node id into
the set of its lane. Returns `none` for a message hitting the
`_ => unreachable!()` arm. -/
def PhaseBState.step (st : PhaseBState) : ControlMessage → Option PhaseBState
  | ControlMessage.ControlSenderInitialized n =>
      some { st with control_senders_initialized :=
               insert n st.control_senders_initialized }
  | ControlMessage.ControlReceiverInitialized n =>
      some { st with control_receivers_initialized :=
               insert n st.control_receivers_initialized }
  | ControlMessage.DataSenderInitialized n =>
      some { st with data_senders_initialized :=
               insert n st.data_senders_initialized }
  | ControlMessage.DataReceiverInitialized n =>
      some { st with data_receivers_initialized :=
               insert n st.data_receivers_initialized }
  | _ => none

/-- How a run of the Phase B barrier ends. -/
inductive PhaseBOutcome where
  /-- all four sets reached size `num_nodes`; the function returned `Ok(())`. -/
  | completed (final : PhaseBState)
  /-- `read_sender_or_receiver_initialized` returned an error; the function
  returned `Err("Error receiving control message: ...")`. -/
  | failed (e : CommunicationError)
  /-- a yielded control message hit the `_ => unreachable!()` arm: panic. -/
  | panicked
  /-- the input list was exhausted with the loop still waiting. -/
  | blocked
  deriving DecidableEq

/-- The barrier loop itself, parametrised by `num_nodes` and the current
state. -/
def waitCommLoop (num_nodes : Nat) (st : PhaseBState) :
    List (Except CommunicationError ControlMessage) → PhaseBOutcome
  | [] =>
      if st.complete num_nodes then PhaseBOutcome.completed st
      else PhaseBOutcome.blocked
  | m :: rest =>
      if st.complete num_nodes then PhaseBOutcome.completed st
      else
        match m with
        | Except.error e => PhaseBOutcome.failed e
        | Except.ok msg =>
            match st.step msg with
            | some st2 => waitCommLoop num_nodes st2 rest
            | none => PhaseBOutcome.panicked

/-- `Node::wait_for_communication_layer_initialized` (node.rs 294-333):
`num_nodes = self.config.data_addresses.len()`, the four sets seeded with
`self.id`, then the barrier loop over the yielded control messages. -/
def Node.wait_for_communication_layer_initialized (node : Node)
    (msgs : List (Except CommunicationError ControlMessage)) : PhaseBOutcome :=
  waitCommLoop node.config.data_addresses.length (PhaseBState.init node.id) msgs

/-!
## Phase E — `wait_for_local_operators_initialized` (node.rs 335-347)

The loop condition is checked first; then `rx_from_operators.recv().await` is
awaited. `recv` yields `Option<ControlMessage>`: `some msg` for a delivered
message, `none` when the channel is closed. Only
`Some(OperatorInitialized(op_id))` inserts into the set; every other value —
another variant or a closed-channel `None` — is silently discarded and the
loop continues. The input list holds the successive `recv` results; its
exhaustion models the loop never returning.
-/

/-- The set of distinct operator ids reported by `OperatorInitialized`
messages in a list of `recv` results. -/
def operatorIdsIn : List (Option ControlMessage) → Finset Nat
  | [] => ∅
  | some (ControlMessage.OperatorInitialized op_id) :: rest =>
      insert op_id (operatorIdsIn rest)
  | _ :: rest => operatorIdsIn rest

/-- The Phase E loop with its running set of initialized operator ids.
Returns `some ()` when the set reaches `num_local_operators` distinct ids and
`none` when the input is exhausted first (the loop never returns). -/
def waitLocalOpsLoop (num_local_operators : Nat) (initialized_operators : Finset Nat) :
    List (Option ControlMessage) → Option Unit
  | [] =>
      if num_local_operators ≤ initialized_operators.card then some ()
      else none
  | r :: rest =>
      if num_local_operators ≤ initialized_operators.card then some ()
      else
        match r with
        | some (ControlMessage.OperatorInitialized op_id) =>
            waitLocalOpsLoop num_local_operators (insert op_id initialized_operators) rest
        | _ => waitLocalOpsLoop num_local_operators initialized_operators rest

/-- `Node::wait_for_local_operators_initialized` (node.rs 335-347): the set
starts empty. -/
def Node.wait_for_local_operators_initialized (_node : Node)
    (recv_results : List (Option ControlMessage)) (num_local_operators : Nat) :
    Option Unit :=
  waitLocalOpsLoop num_local_operators ∅ recv_results

/-!
## Phase G — `wait_for_all_operators_initialized` (node.rs 360-379)

`initialized_nodes` is seeded with `self.id`; each successful
`read_all_operators_initialized_on_node_msg()` yields a node id which is
inserted with no validation; an `Err` from the handler aborts with an error.
-/

/-- How a run of the Phase G barrier ends. -/
inductive PhaseGOutcome where
  /-- `initialized_nodes` reached size `num_nodes`; the function returned
  `Ok(())`. `final` is the set at that point. -/
  | completed (final : Finset Nat)
  /-- the handler returned an error; the function returned
  `Err("Error waiting for other nodes to set up: ...")`. -/
  | failed (e : CommunicationError)
  /-- the input list was exhausted with the loop still waiting. -/
  | blocked
  deriving DecidableEq

/-- The Phase G barrier loop. -/
def waitAllOpsLoop (num_nodes : Nat) (initialized_nodes : Finset Nat) :
    List (Except CommunicationError NodeId) → PhaseGOutcome
  | [] =>
      if num_nodes ≤ initialized_nodes.card then
        PhaseGOutcome.completed initialized_nodes
      else PhaseGOutcome.blocked
  | r :: rest =>
      if num_nodes ≤ initialized_nodes.card then
        PhaseGOutcome.completed initialized_nodes
      else
        match r with
        | Except.ok node_id => waitAllOpsLoop num_nodes (insert node_id initialized_nodes) rest
        | Except.error e => PhaseGOutcome.failed e

/-- `Node::wait_for_all_operators_initialized` (node.rs 360-379):
`num_nodes = self.config.data_addresses.len()`, the set seeded with
`self.id`. -/
def Node.wait_for_all_operators_initialized (node : Node)
    (msgs : List (Except CommunicationError NodeId)) : PhaseGOutcome :=
  waitAllOpsLoop node.config.data_addresses.length {node.id} msgs

/-!
## `run_operators` (node.rs 381-461)

The body is a straight-line sequence of awaits; we embed it as a function from
the values those awaits yield to the list of externally visible actions it
performs, in order, together with how it returns. The scheduler pass, the
`ChannelManager` construction and the executor factories are collaborators
outside this repository; only their success/failure and the per-operator data
`run_operators` reads from them are inputs here.
-/

/-- The externally visible actions of `run_operators`, in program order. -/
inductive NodeEvent where
  /-- `wait_for_communication_layer_initialized` returned `Ok` (Phase B done). -/
  | phase_b_completed
  /-- `tokio::spawn` of one local operator's executor task. -/
  | operator_spawned (op_id : OperatorId)
  /-- `wait_for_local_operators_initialized` returned (Phase E done). -/
  | phase_e_completed
  /-- invocation of the driver's `k`-th setup hook. -/
  | driver_setup_hook (k : Nat)
  /-- `broadcast_to_nodes(AllOperatorsInitializedOnNode(self.id))`. -/
  | broadcast_all_operators_initialized (node_id : NodeId)
  /-- `wait_for_all_operators_initialized` returned `Ok` (Phase G done). -/
  | phase_g_completed
  /-- `set_node_initialized()`: the `Initialized` latch flipped to `true`. -/
  | latch_set
  /-- `tx.send(ControlMessage::RunOperator(op_id))` on the operator's command
  channel. -/
  | run_operator_sent (op_id : OperatorId)
  deriving DecidableEq, Repr

/-- How `run_operators` returns. -/
inductive RunOperatorsResult where
  /-- returned `Ok(())`. -/
  | ok
  /-- returned `Err(String)` (message abstracted). -/
  | err
  /-- panicked (the `unreachable!()` in the Phase B loop). -/
  | panicked
  /-- one of the barrier loops never returned. -/
  | blocked
  deriving DecidableEq, Repr

/-- The values yielded by the awaits inside `run_operators`. -/
structure RunOperatorsInput where
  /-- successive results of `read_sender_or_receiver_initialized()` (Phase B). -/
  comm_msgs : List (Except CommunicationError ControlMessage)
  /-- whether `graph.to_dot(filename)` succeeds (consulted only when
  `config.graph_filename` is set). -/
  dot_ok : Bool
  /-- ids of the scheduled operators with `node_id == self.id`, in graph
  order (ids are distinct in a well-formed graph). -/
  local_operators : List OperatorId
  /-- successive results of `rx_from_operators.recv()` (Phase E). -/
  operator_recv_results : List (Option ControlMessage)
  /-- number of setup hooks of `graph.get_driver(self.id)`, when a driver is
  declared for this node. -/
  driver_hooks : Option Nat
  /-- result of the `AllOperatorsInitializedOnNode` broadcast. -/
  broadcast_result : Except CommunicationError Unit
  /-- successive results of `read_all_operators_initialized_on_node_msg()`
  (Phase G). -/
  node_init_msgs : List (Except CommunicationError NodeId)
  /-- operators whose command channel is closed, so that sending
  `RunOperator` to them fails. -/
  failed_op_sends : List OperatorId

/-- The final `for (op_id, tx) in channels_to_operators` loop: each send is
attempted in turn; a failed send makes `run_operators` return `Err` via `?`. -/
def runOperatorSends (failed_op_sends : List OperatorId) :
    List OperatorId → List NodeEvent × RunOperatorsResult
  | [] => ([], RunOperatorsResult.ok)
  | op :: rest =>
      if failed_op_sends.contains op then
        ([NodeEvent.run_operator_sent op], RunOperatorsResult.err)
      else
        let tail := runOperatorSends failed_op_sends rest
        (NodeEvent.run_operator_sent op :: tail.1, tail.2)

/-- `Node::run_operators` (node.rs 381-461): Phase B barrier, scheduling and
optional DOT dump, operator spawn, Phase E barrier, driver setup hooks,
`AllOperatorsInitializedOnNode` broadcast, Phase G barrier, latch, and the
`RunOperator` sends. Returns the emitted events in order and the result. -/
def Node.run_operators (node : Node) (inp : RunOperatorsInput) :
    List NodeEvent × RunOperatorsResult :=
  match node.wait_for_communication_layer_initialized inp.comm_msgs with
  | PhaseBOutcome.failed _ => ([], RunOperatorsResult.err)
  | PhaseBOutcome.panicked => ([], RunOperatorsResult.panicked)
  | PhaseBOutcome.blocked => ([], RunOperatorsResult.blocked)
  | PhaseBOutcome.completed _ =>
      let events0 := [NodeEvent.phase_b_completed]
      if node.config.graph_filename.isSome && !inp.dot_ok then
        (events0, RunOperatorsResult.err)
      else
        let events1 := events0 ++ inp.local_operators.map NodeEvent.operator_spawned
        match node.wait_for_local_operators_initialized inp.operator_recv_results
            inp.local_operators.length with
        | none => (events1, RunOperatorsResult.blocked)
        | some _ =>
            let hooks := match inp.driver_hooks with
              | none => []
              | some k => (List.range k).map NodeEvent.driver_setup_hook
            let events2 := events1 ++ [NodeEvent.phase_e_completed] ++ hooks ++
              [NodeEvent.broadcast_all_operators_initialized node.id]
            match inp.broadcast_result with
            | Except.error _ => (events2, RunOperatorsResult.err)
            | Except.ok _ =>
                match node.wait_for_all_operators_initialized inp.node_init_msgs with
                | PhaseGOutcome.failed _ => (events2, RunOperatorsResult.err)
                | PhaseGOutcome.blocked => (events2, RunOperatorsResult.blocked)
                | PhaseGOutcome.completed _ =>
                    let events3 := events2 ++
                      [NodeEvent.phase_g_completed, NodeEvent.latch_set]
                    let sends := runOperatorSends inp.failed_op_sends inp.local_operators
                    (events3 ++ sends.1, sends.2)

/-!
## The `Initialized` latch and `run_async` (node.rs 134-163)

The latch is `Arc<(Mutex<bool>, Condvar)>`, created `false` by `Node::new`.
The only write anywhere in `node.rs` is `*started = true` inside
`set_node_initialized` (lines 156-163), which `run_operators` calls once,
right after the Phase G barrier. `run_async` spawns the node thread and then
runs `while !*started { started = cvar.wait(started).unwrap(); }`: it observes
the latch once under the lock and again after every condition-variable wakeup
(wakeups may be spurious), returning the `NodeHandle` only on observing
`true`.
-/

/-- `Node::set_node_initialized` (node.rs 156-163): flip the latch to `true`
and `notify_all`. -/
def Node.set_node_initialized (node : Node) : Node :=
  { node with initialized := true }

/-- The latch value after a prefix of `run_operators` events: `true` exactly
when `set_node_initialized` has run, i.e. when a `latch_set` event occurred. -/
def latchAfter (events : List NodeEvent) : Bool :=
  events.any fun e => e == NodeEvent.latch_set

/-- The caller-side wait loop of `run_async` (node.rs 144-148) over the
successive latch values it observes; `none` models the loop still blocked
after the listed observations. -/
def runAsyncWait : List Bool → Option Unit
  | [] => none
  | b :: rest => if b then some () else runAsyncWait rest

/-!
## `async_run` supervision (node.rs 463-607, tcp transport)

After creating the transport workers, `async_run` builds six futures —
`senders_fut`, `recvs_fut`, `control_senders_fut`, `control_recvs_fut`,
`ops_fut` and `shutdown_fut` — and branches on `num_nodes <= 1`:

* `num_nodes <= 1`: `tokio::try_join!` on the four worker futures (an `Err`
  is only logged as a non-fatal communication error), then
  `tokio::select!` over `ops_fut` and `shutdown_fut` alone;
* `num_nodes > 1`: one `tokio::select!` over all six futures.

Every result-carrying branch of those `select!`s is written
`Err(e) = fut => ...`: when such a future completes with `Ok`, the pattern
does not match and tokio disables the branch, so the race keeps waiting. The
nondeterministic interleaving is an oracle: the list of future completions in
the order they happen, each completion tagged with whether its value matches
an `Err` pattern.
-/

/-- The futures raced by `async_run`. -/
inductive FutId where
  | data_senders
  | data_receivers
  | control_senders
  | control_receivers
  | ops
  | shutdown_signal
  deriving DecidableEq, Repr

/-- One future completing: which future, and whether its value is an `Err`
(meaningless for `shutdown_signal`, whose branch pattern is `_`). -/
structure Completion where
  fut : FutId
  is_err : Bool
  deriving DecidableEq, Repr

/-- Whether a completion fires a branch of a `select!` over `branches`:
the future must be raced, and its branch pattern must match — `_` for the
shutdown branch, `Err(e)` for every other branch. -/
def completionMatches (branches : List FutId) (c : Completion) : Bool :=
  branches.contains c.fut && (c.fut == FutId.shutdown_signal || c.is_err)

/-- `tokio::select!` over `branches`, driven by the oracle list of
completions: the first completion that fires a branch ends the race with that
future; completions whose pattern does not match disable their branch and the
race continues; `none` means the `select!` never resolved. -/
def selectFirst (branches : List FutId) : List Completion → Option FutId
  | [] => none
  | c :: rest =>
      if completionMatches branches c then some c.fut
      else selectFirst branches rest

/-- The results of the four transport-worker futures, used by the
`num_nodes <= 1` branch where they are all awaited to completion. -/
structure WorkerResults where
  senders : Except CommunicationError Unit
  recvs : Except CommunicationError Unit
  control_senders : Except CommunicationError Unit
  control_recvs : Except CommunicationError Unit

/-- `tokio::try_join!(senders_fut, recvs_fut, control_senders_fut,
control_recvs_fut)`: `Ok` of the tuple when all four succeed, otherwise the
first error in argument order. -/
def tryJoinWorkers (w : WorkerResults) : Except CommunicationError Unit := do
  let _ ← w.senders
  let _ ← w.recvs
  let _ ← w.control_senders
  let _ ← w.control_recvs
  pure ()

/-- What the supervision part of `async_run` did. -/
structure SupervisionResult where
  /-- `true` iff the `num_nodes <= 1` branch logged
  "Non-fatal network communication error" from the joined workers. -/
  logged_nonfatal_comm_error : Bool
  /-- the future whose completion ended the run (`none`: still racing). -/
  winner : Option FutId
  deriving DecidableEq

/-- The branching supervision logic of `async_run` (node.rs 540-606, tcp
transport): `num_nodes = self.config.data_addresses.len()` was computed at
line 465. -/
def Node.async_run_supervision (node : Node) (workers : WorkerResults)
    (completions : List Completion) : SupervisionResult :=
  let num_nodes := node.config.data_addresses.length
  if num_nodes ≤ 1 then
    { logged_nonfatal_comm_error :=
        match tryJoinWorkers workers with
        | Except.error _ => true
        | Except.ok _ => false
      winner := selectFirst [FutId.ops, FutId.shutdown_signal] completions }
  else
    { logged_nonfatal_comm_error := false
      winner := selectFirst
        [FutId.data_senders, FutId.data_receivers, FutId.control_senders,
         FutId.control_receivers, FutId.ops, FutId.shutdown_signal]
        completions }


/-!
## Ordering predicates over event traces

Decidable predicates used to state the temporal claims: `precededBy p q t`
holds when every `p`-event of `t` occurs strictly after a `q`-event, and
`noneAfter p q t` holds when no `q`-event of `t` occurs after a `p`-event.
-/

/-- No element of `t` satisfies `p`. -/
def noEvent {α : Type} (p : α → Bool) (t : List α) : Bool :=
  t.all fun e => !(p e)

/-- Every element of `t` satisfying `p` occurs strictly after some element
satisfying `q`. -/
def precededBy {α : Type} (p q : α → Bool) : List α → Bool
  | [] => true
  | e :: rest => q e || (!(p e) && precededBy p q rest)

/-- No element of `t` satisfying `q` occurs strictly after an element
satisfying `p`. -/
def noneAfter {α : Type} (p q : α → Bool) : List α → Bool
  | [] => true
  | e :: rest => (!(p e) || noEvent q rest) && noneAfter p q rest

theorem noEvent_iff {α : Type} (p : α → Bool) (t : List α) :
    noEvent p t = true ↔ ∀ e ∈ t, p e = false := by
  simp [noEvent, List.all_eq_true]

theorem noEvent_append {α : Type} (p : α → Bool) (xs ys : List α) :
    noEvent p (xs ++ ys) = (noEvent p xs && noEvent p ys) := by
  simp [noEvent, List.all_append]

theorem noEvent_cons {α : Type} (p : α → Bool) (e : α) (t : List α) :
    noEvent p (e :: t) = (!(p e) && noEvent p t) := by
  simp [noEvent, List.all_cons]

theorem precededBy_of_noEvent {α : Type} (p q : α → Bool) (t : List α)
    (h : noEvent p t = true) : precededBy p q t = true := by
  induction t with
  | nil => rfl
  | cons e rest ih =>
      rw [noEvent_cons, Bool.and_eq_true] at h
      simp only [precededBy, Bool.or_eq_true, Bool.and_eq_true]
      exact Or.inr ⟨h.1, ih h.2⟩

theorem precededBy_append_of {α : Type} (p q : α → Bool) (xs ys : List α)
    (hp : noEvent p xs = true) (hq : noEvent q xs = true) :
    precededBy p q (xs ++ ys) = precededBy p q ys := by
  induction xs with
  | nil => rfl
  | cons e rest ih =>
      rw [noEvent_cons, Bool.and_eq_true] at hp hq
      have hq1 : q e = false := by
        cases hqe : q e
        · rfl
        · simp [hqe] at hq
      have hp1 : (!(p e)) = true := hp.1
      simp only [List.cons_append, precededBy, hq1, Bool.false_or, hp1, Bool.true_and]
      exact ih hp.2 hq.2

theorem precededBy_cons_q {α : Type} (p q : α → Bool) (e : α) (t : List α)
    (h : q e = true) : precededBy p q (e :: t) = true := by
  simp [precededBy, h]

theorem noneAfter_of_noEvent_q {α : Type} (p q : α → Bool) (t : List α)
    (h : noEvent q t = true) : noneAfter p q t = true := by
  induction t with
  | nil => rfl
  | cons e rest ih =>
      rw [noEvent_cons, Bool.and_eq_true] at h
      have hrest := ih h.2
      simp only [noneAfter, Bool.and_eq_true, Bool.or_eq_true]
      exact ⟨Or.inr h.2, hrest⟩

theorem noneAfter_append_left {α : Type} (p q : α → Bool) (xs ys : List α)
    (hp : noEvent p xs = true) (hys : noneAfter p q ys = true) :
    noneAfter p q (xs ++ ys) = true := by
  induction xs with
  | nil => simpa using hys
  | cons e rest ih =>
      rw [noEvent_cons, Bool.and_eq_true] at hp
      simp only [List.cons_append, noneAfter, Bool.and_eq_true, Bool.or_eq_true]
      exact ⟨Or.inl hp.1, ih hp.2⟩

theorem noneAfter_append_right {α : Type} (p q : α → Bool) (xs ys : List α)
    (hxs : noneAfter p q xs = true) (hq : noEvent q ys = true) :
    noneAfter p q (xs ++ ys) = true := by
  induction xs with
  | nil => simpa using noneAfter_of_noEvent_q p q ys hq
  | cons e rest ih =>
      simp only [noneAfter, Bool.and_eq_true, Bool.or_eq_true] at hxs
      simp only [List.cons_append, noneAfter, Bool.and_eq_true, Bool.or_eq_true]
      refine ⟨?_, ih hxs.2⟩
      rcases hxs.1 with h | h
      · exact Or.inl h
      · exact Or.inr (by simp [noEvent_append, h, hq])

theorem countP_eq_zero_of_noEvent {α : Type} (p : α → Bool) (t : List α)
    (h : noEvent p t = true) : t.countP p = 0 := by
  rw [List.countP_eq_zero]
  intro a ha
  simp [(noEvent_iff p t).mp h a ha]

/-!
## Event classifiers and facts about the trace segments of `run_operators`
-/

/-- Classifier: driver setup-hook invocation. -/
def isDriverHook : NodeEvent → Bool
  | NodeEvent.driver_setup_hook _ => true
  | _ => false

/-- Classifier: `AllOperatorsInitializedOnNode` broadcast. -/
def isBroadcastAllOps : NodeEvent → Bool
  | NodeEvent.broadcast_all_operators_initialized _ => true
  | _ => false

/-- Classifier: `RunOperator` send. -/
def isRunOperatorSent : NodeEvent → Bool
  | NodeEvent.run_operator_sent _ => true
  | _ => false

/-- Classifier: Phase E (local operator barrier) completion. -/
def isPhaseEDone : NodeEvent → Bool
  | NodeEvent.phase_e_completed => true
  | _ => false

/-- Classifier: Phase G (global barrier) completion. -/
def isPhaseGDone : NodeEvent → Bool
  | NodeEvent.phase_g_completed => true
  | _ => false

/-- Classifier: the `Initialized` latch being set. -/
def isLatchSetEvent : NodeEvent → Bool
  | NodeEvent.latch_set => true
  | _ => false

theorem noEvent_map {α : Type} (p : NodeEvent → Bool) (f : α → NodeEvent)
    (l : List α) (h : ∀ x, p (f x) = false) : noEvent p (l.map f) = true := by
  rw [noEvent_iff]
  intro e he
  rcases List.mem_map.mp he with ⟨x, _, rfl⟩
  exact h x

theorem runOperatorSends_events (failed : List OperatorId) (l : List OperatorId) :
    ∀ e ∈ (runOperatorSends failed l).1, ∃ op, e = NodeEvent.run_operator_sent op := by
  induction l with
  | nil => intro e he; simp [runOperatorSends] at he
  | cons op rest ih =>
      intro e he
      by_cases hf : op ∈ failed
      · simp [runOperatorSends, hf] at he
        exact ⟨op, he⟩
      · simp [runOperatorSends, hf, List.mem_cons] at he
        cases he with
        | inl h => exact ⟨op, h⟩
        | inr h => exact ih e h

theorem noEvent_runOperatorSends (p : NodeEvent → Bool) (failed l : List OperatorId)
    (h : ∀ op, p (NodeEvent.run_operator_sent op) = false) :
    noEvent p (runOperatorSends failed l).1 = true := by
  rw [noEvent_iff]
  intro e he
  rcases runOperatorSends_events failed l e he with ⟨op, rfl⟩
  exact h op

theorem precededBy_cons_skip {α : Type} (p q : α → Bool) (e : α) (t : List α)
    (hp : p e = false) (hq : q e = false) :
    precededBy p q (e :: t) = precededBy p q t := by
  simp [precededBy, hp, hq]

theorem noneAfter_cons_of_not_p {α : Type} (p q : α → Bool) (e : α) (t : List α)
    (hp : p e = false) : noneAfter p q (e :: t) = noneAfter p q t := by
  simp [noneAfter, hp]

theorem noneAfter_append_of_noEvent_p {α : Type} (p q : α → Bool) (xs ys : List α)
    (hp : noEvent p xs = true) :
    noneAfter p q (xs ++ ys) = noneAfter p q ys := by
  induction xs with
  | nil => rfl
  | cons e rest ih =>
      rw [noEvent_cons, Bool.and_eq_true, Bool.not_eq_true'] at hp
      rw [List.cons_append, noneAfter_cons_of_not_p p q e _ hp.1]
      exact ih hp.2

theorem noneAfter_cons_of_noEvent_q {α : Type} (p q : α → Bool) (e : α) (t : List α)
    (hq : noEvent q t = true) : noneAfter p q (e :: t) = true := by
  simp [noneAfter, hq, noneAfter_of_noEvent_q p q t hq]

theorem isDriverHook_elim (e : NodeEvent) (h : isDriverHook e = true) :
    ∃ k, e = NodeEvent.driver_setup_hook k := by
  cases e with
  | driver_setup_hook k => exact ⟨k, rfl⟩
  | _ => simp [isDriverHook] at h

theorem noEvent_of_all_driver (p : NodeEvent → Bool) (hooks : List NodeEvent)
    (hall : ∀ e ∈ hooks, isDriverHook e = true)
    (hp : ∀ k, p (NodeEvent.driver_setup_hook k) = false) :
    noEvent p hooks = true := by
  rw [noEvent_iff]
  intro e he
  rcases isDriverHook_elim e (hall e he) with ⟨k, rfl⟩
  exact hp k

/-- Structural characterization of the traces `run_operators` can emit: it
stops empty-handed (Phase B failure), after Phase B (DOT failure), after the
spawns (Phase E blocked), after the broadcast (broadcast/Phase G failure), or
runs to the `RunOperator` sends; only the last shape can return `Ok`. -/
theorem run_operators_trace_shape (node : Node) (inp : RunOperatorsInput) :
    ((node.run_operators inp).1 = [] ∧
      (node.run_operators inp).2 ≠ RunOperatorsResult.ok) ∨
    ((node.run_operators inp).1 = [NodeEvent.phase_b_completed] ∧
      (node.run_operators inp).2 ≠ RunOperatorsResult.ok) ∨
    ((node.run_operators inp).1 =
        NodeEvent.phase_b_completed ::
          inp.local_operators.map NodeEvent.operator_spawned ∧
      (node.run_operators inp).2 ≠ RunOperatorsResult.ok) ∨
    (∃ hooks : List NodeEvent, (∀ e ∈ hooks, isDriverHook e = true) ∧
      (((node.run_operators inp).1 =
          NodeEvent.phase_b_completed ::
            (inp.local_operators.map NodeEvent.operator_spawned ++
              NodeEvent.phase_e_completed ::
                (hooks ++
                  [NodeEvent.broadcast_all_operators_initialized node.id])) ∧
         (node.run_operators inp).2 ≠ RunOperatorsResult.ok) ∨
       (node.run_operators inp).1 =
          NodeEvent.phase_b_completed ::
            (inp.local_operators.map NodeEvent.operator_spawned ++
              NodeEvent.phase_e_completed ::
                (hooks ++
                  NodeEvent.broadcast_all_operators_initialized node.id ::
                    NodeEvent.phase_g_completed :: NodeEvent.latch_set ::
                      (runOperatorSends inp.failed_op_sends
                        inp.local_operators).1)))) := by
  have hooks_driver : ∀ e ∈ (match inp.driver_hooks with
      | none => ([] : List NodeEvent)
      | some k => (List.range k).map NodeEvent.driver_setup_hook),
      isDriverHook e = true := by
    cases inp.driver_hooks with
    | none => intro e he; simp at he
    | some k =>
        intro e he
        rcases List.mem_map.mp he with ⟨x, _, rfl⟩
        rfl
  unfold Node.run_operators
  cases hB : node.wait_for_communication_layer_initialized inp.comm_msgs with
  | failed e => exact Or.inl ⟨rfl, by simp⟩
  | panicked => exact Or.inl ⟨rfl, by simp⟩
  | blocked => exact Or.inl ⟨rfl, by simp⟩
  | completed st =>
      by_cases hdot : (node.config.graph_filename.isSome && !inp.dot_ok) = true
      · refine Or.inr (Or.inl ?_)
        simp [hdot]
      · rw [Bool.not_eq_true] at hdot
        cases hE : node.wait_for_local_operators_initialized
            inp.operator_recv_results inp.local_operators.length with
        | none =>
            refine Or.inr (Or.inr (Or.inl ?_))
            simp [hdot, hE]
        | some u =>
            refine Or.inr (Or.inr (Or.inr ⟨_, hooks_driver, ?_⟩))
            cases hbc : inp.broadcast_result with
            | error e =>
                refine Or.inl ⟨?_, ?_⟩ <;> simp [hdot, hE, hbc]
            | ok u2 =>
                cases hG : node.wait_for_all_operators_initialized
                    inp.node_init_msgs with
                | failed e =>
                    refine Or.inl ⟨?_, ?_⟩ <;> simp [hdot, hE, hbc, hG]
                | blocked =>
                    refine Or.inl ⟨?_, ?_⟩ <;> simp [hdot, hE, hbc, hG]
                | completed s =>
                    refine Or.inr ?_
                    simp [hdot, hE, hbc, hG]

theorem noneAfter_of_noEvent_p {α : Type} (p q : α → Bool) (t : List α)
    (h : noEvent p t = true) : noneAfter p q t = true := by
  induction t with
  | nil => rfl
  | cons e rest ih =>
      rw [noEvent_cons, Bool.and_eq_true, Bool.not_eq_true'] at h
      rw [noneAfter_cons_of_not_p p q e rest h.1]
      exact ih h.2

/-- **C2** — Phase ordering in `run_operators`: in every trace the function
can emit, driver setup hooks occur only after the Phase E completion event,
no driver setup hook occurs after the `AllOperatorsInitializedOnNode`
broadcast, and every `RunOperator` send occurs after both the Phase G
completion event and the setting of the `Initialized` latch. -/
theorem c2_run_operators_phase_ordering (node : Node) (inp : RunOperatorsInput) :
    precededBy isDriverHook isPhaseEDone (node.run_operators inp).1 = true ∧
    noneAfter isBroadcastAllOps isDriverHook (node.run_operators inp).1 = true ∧
    precededBy isRunOperatorSent isPhaseGDone (node.run_operators inp).1 = true ∧
    precededBy isRunOperatorSent isLatchSetEvent (node.run_operators inp).1 = true := by
  have hspDH : noEvent isDriverHook
      (inp.local_operators.map NodeEvent.operator_spawned) = true :=
    noEvent_map _ _ _ (fun _ => rfl)
  have hspPE : noEvent isPhaseEDone
      (inp.local_operators.map NodeEvent.operator_spawned) = true :=
    noEvent_map _ _ _ (fun _ => rfl)
  have hspRS : noEvent isRunOperatorSent
      (inp.local_operators.map NodeEvent.operator_spawned) = true :=
    noEvent_map _ _ _ (fun _ => rfl)
  have hspPG : noEvent isPhaseGDone
      (inp.local_operators.map NodeEvent.operator_spawned) = true :=
    noEvent_map _ _ _ (fun _ => rfl)
  have hspLS : noEvent isLatchSetEvent
      (inp.local_operators.map NodeEvent.operator_spawned) = true :=
    noEvent_map _ _ _ (fun _ => rfl)
  have hspBC : noEvent isBroadcastAllOps
      (inp.local_operators.map NodeEvent.operator_spawned) = true :=
    noEvent_map _ _ _ (fun _ => rfl)
  rcases run_operators_trace_shape node inp with
    ⟨h, -⟩ | ⟨h, -⟩ | ⟨h, -⟩ | ⟨hooks, hall, ⟨h, -⟩ | h⟩ <;> rw [h]
  · exact ⟨rfl, rfl, rfl, rfl⟩
  · decide
  · refine ⟨?_, ?_, ?_, ?_⟩
    · rw [precededBy_cons_skip _ _ _ _ rfl rfl]
      exact precededBy_of_noEvent _ _ _ hspDH
    · apply noneAfter_of_noEvent_p
      rw [noEvent_cons]
      simp [hspBC, isBroadcastAllOps]
    · apply precededBy_of_noEvent
      rw [noEvent_cons]
      simp [hspRS, isRunOperatorSent]
    · apply precededBy_of_noEvent
      rw [noEvent_cons]
      simp [hspRS, isRunOperatorSent]
  · have hhBC : noEvent isBroadcastAllOps hooks = true :=
      noEvent_of_all_driver _ _ hall (fun _ => rfl)
    have hhRS : noEvent isRunOperatorSent hooks = true :=
      noEvent_of_all_driver _ _ hall (fun _ => rfl)
    refine ⟨?_, ?_, ?_, ?_⟩
    · rw [precededBy_cons_skip _ _ _ _ rfl rfl,
        precededBy_append_of _ _ _ _ hspDH hspPE]
      exact precededBy_cons_q _ _ _ _ rfl
    · rw [noneAfter_cons_of_not_p _ _ _ _ rfl,
        noneAfter_append_of_noEvent_p _ _ _ _ hspBC,
        noneAfter_cons_of_not_p _ _ _ _ rfl,
        noneAfter_append_of_noEvent_p _ _ _ _ hhBC]
      simp [noneAfter, noEvent, isBroadcastAllOps, isDriverHook]
    · apply precededBy_of_noEvent
      rw [noEvent_cons]
      refine (Bool.and_eq_true _ _).mpr ⟨rfl, ?_⟩
      rw [noEvent_append]
      refine (Bool.and_eq_true _ _).mpr ⟨hspRS, ?_⟩
      rw [noEvent_cons]
      refine (Bool.and_eq_true _ _).mpr ⟨rfl, ?_⟩
      rw [noEvent_append]
      exact (Bool.and_eq_true _ _).mpr ⟨hhRS, rfl⟩
    · apply precededBy_of_noEvent
      rw [noEvent_cons]
      refine (Bool.and_eq_true _ _).mpr ⟨rfl, ?_⟩
      rw [noEvent_append]
      refine (Bool.and_eq_true _ _).mpr ⟨hspRS, ?_⟩
      rw [noEvent_cons]
      refine (Bool.and_eq_true _ _).mpr ⟨rfl, ?_⟩
      rw [noEvent_append]
      exact (Bool.and_eq_true _ _).mpr ⟨hhRS, rfl⟩
  · have hhBC : noEvent isBroadcastAllOps hooks = true :=
      noEvent_of_all_driver _ _ hall (fun _ => rfl)
    have hhRS : noEvent isRunOperatorSent hooks = true :=
      noEvent_of_all_driver _ _ hall (fun _ => rfl)
    have hhPG : noEvent isPhaseGDone hooks = true :=
      noEvent_of_all_driver _ _ hall (fun _ => rfl)
    have hhLS : noEvent isLatchSetEvent hooks = true :=
      noEvent_of_all_driver _ _ hall (fun _ => rfl)
    refine ⟨?_, ?_, ?_, ?_⟩
    · rw [precededBy_cons_skip _ _ _ _ rfl rfl,
        precededBy_append_of _ _ _ _ hspDH hspPE]
      exact precededBy_cons_q _ _ _ _ rfl
    · rw [noneAfter_cons_of_not_p _ _ _ _ rfl,
        noneAfter_append_of_noEvent_p _ _ _ _ hspBC,
        noneAfter_cons_of_not_p _ _ _ _ rfl,
        noneAfter_append_of_noEvent_p _ _ _ _ hhBC]
      apply noneAfter_cons_of_noEvent_q
      rw [noEvent_cons, noEvent_cons]
      simp [noEvent_runOperatorSends isDriverHook _ _ (fun _ => rfl), isDriverHook]
    · rw [precededBy_cons_skip _ _ _ _ rfl rfl,
        precededBy_append_of _ _ _ _ hspRS hspPG,
        precededBy_cons_skip _ _ _ _ rfl rfl,
        precededBy_append_of _ _ _ _ hhRS hhPG,
        precededBy_cons_skip _ _ _ _ rfl rfl]
      exact precededBy_cons_q _ _ _ _ rfl
    · rw [precededBy_cons_skip _ _ _ _ rfl rfl,
        precededBy_append_of _ _ _ _ hspRS hspLS,
        precededBy_cons_skip _ _ _ _ rfl rfl,
        precededBy_append_of _ _ _ _ hhRS hhLS,
        precededBy_cons_skip _ _ _ _ rfl rfl,
        precededBy_cons_skip _ _ _ _ rfl rfl]
      exact precededBy_cons_q _ _ _ _ rfl

theorem runAsyncWait_some_imp (obs : List Bool) (h : runAsyncWait obs = some ()) :
    true ∈ obs := by
  induction obs with
  | nil => simp [runAsyncWait] at h
  | cons b rest ih =>
      cases b with
      | false =>
          simp [runAsyncWait] at h
          exact List.mem_cons_of_mem _ (ih h)
      | true => exact List.mem_cons_self _ _

/-- **C5** — The `Initialized` latch: it starts `false` in `Node::new` and
`set_node_initialized` is what flips it to `true`; in every `run_operators`
trace the latch is set at most once, exactly once on an `Ok` run, and only
after the Phase G completion event; the latch reads `true` exactly when that
event has occurred; and the `run_async` wait loop returns only after
observing the latch `true`. -/
theorem c5_run_async_returns_after_latch (node : Node) (inp : RunOperatorsInput)
    (obs : List Bool) (cfg : Configuration) :
    (Node.new cfg).initialized = false ∧
    node.set_node_initialized.initialized = true ∧
    (node.run_operators inp).1.countP isLatchSetEvent ≤ 1 ∧
    ((node.run_operators inp).2 = RunOperatorsResult.ok →
      (node.run_operators inp).1.countP isLatchSetEvent = 1) ∧
    precededBy isLatchSetEvent isPhaseGDone (node.run_operators inp).1 = true ∧
    (latchAfter (node.run_operators inp).1 = true ↔
      NodeEvent.latch_set ∈ (node.run_operators inp).1) ∧
    (runAsyncWait obs = some () → true ∈ obs) := by
  have hspLS : noEvent isLatchSetEvent
      (inp.local_operators.map NodeEvent.operator_spawned) = true :=
    noEvent_map _ _ _ (fun _ => rfl)
  have hspPG : noEvent isPhaseGDone
      (inp.local_operators.map NodeEvent.operator_spawned) = true :=
    noEvent_map _ _ _ (fun _ => rfl)
  have hlatch_iff : latchAfter (node.run_operators inp).1 = true ↔
      NodeEvent.latch_set ∈ (node.run_operators inp).1 := by
    simp [latchAfter, List.any_eq_true, beq_iff_eq]
  refine ⟨rfl, rfl, ?_, ?_, ?_, hlatch_iff, runAsyncWait_some_imp obs⟩
  · rcases run_operators_trace_shape node inp with
      ⟨h, -⟩ | ⟨h, -⟩ | ⟨h, -⟩ | ⟨hooks, hall, ⟨h, -⟩ | h⟩ <;> rw [h]
    · decide
    · decide
    · simp [List.countP_cons, isLatchSetEvent,
        countP_eq_zero_of_noEvent _ _ hspLS]
    · have hhLS : noEvent isLatchSetEvent hooks = true :=
        noEvent_of_all_driver _ _ hall (fun _ => rfl)
      simp [List.countP_cons, List.countP_append, isLatchSetEvent,
        countP_eq_zero_of_noEvent _ _ hspLS, countP_eq_zero_of_noEvent _ _ hhLS]
    · have hhLS : noEvent isLatchSetEvent hooks = true :=
        noEvent_of_all_driver _ _ hall (fun _ => rfl)
      have hsends : noEvent isLatchSetEvent
          (runOperatorSends inp.failed_op_sends inp.local_operators).1 = true :=
        noEvent_runOperatorSends _ _ _ (fun _ => rfl)
      simp [List.countP_cons, List.countP_append, isLatchSetEvent,
        countP_eq_zero_of_noEvent _ _ hspLS, countP_eq_zero_of_noEvent _ _ hhLS,
        countP_eq_zero_of_noEvent _ _ hsends]
  · intro hok
    rcases run_operators_trace_shape node inp with
      ⟨h, hr⟩ | ⟨h, hr⟩ | ⟨h, hr⟩ | ⟨hooks, hall, ⟨h, hr⟩ | h⟩
    · exact absurd hok hr
    · exact absurd hok hr
    · exact absurd hok hr
    · exact absurd hok hr
    · rw [h]
      have hhLS : noEvent isLatchSetEvent hooks = true :=
        noEvent_of_all_driver _ _ hall (fun _ => rfl)
      have hsends : noEvent isLatchSetEvent
          (runOperatorSends inp.failed_op_sends inp.local_operators).1 = true :=
        noEvent_runOperatorSends _ _ _ (fun _ => rfl)
      simp [List.countP_cons, List.countP_append, isLatchSetEvent,
        countP_eq_zero_of_noEvent _ _ hspLS, countP_eq_zero_of_noEvent _ _ hhLS,
        countP_eq_zero_of_noEvent _ _ hsends]
  · rcases run_operators_trace_shape node inp with
      ⟨h, -⟩ | ⟨h, -⟩ | ⟨h, -⟩ | ⟨hooks, hall, ⟨h, -⟩ | h⟩ <;> rw [h]
    · rfl
    · decide
    · apply precededBy_of_noEvent
      rw [noEvent_cons]
      simp [hspLS, isLatchSetEvent]
    · have hhLS : noEvent isLatchSetEvent hooks = true :=
        noEvent_of_all_driver _ _ hall (fun _ => rfl)
      apply precededBy_of_noEvent
      rw [noEvent_cons]
      refine (Bool.and_eq_true _ _).mpr ⟨rfl, ?_⟩
      rw [noEvent_append]
      refine (Bool.and_eq_true _ _).mpr ⟨hspLS, ?_⟩
      rw [noEvent_cons]
      refine (Bool.and_eq_true _ _).mpr ⟨rfl, ?_⟩
      rw [noEvent_append]
      exact (Bool.and_eq_true _ _).mpr ⟨hhLS, rfl⟩
    · have hhLS : noEvent isLatchSetEvent hooks = true :=
        noEvent_of_all_driver _ _ hall (fun _ => rfl)
      have hhPG : noEvent isPhaseGDone hooks = true :=
        noEvent_of_all_driver _ _ hall (fun _ => rfl)
      rw [precededBy_cons_skip _ _ _ _ rfl rfl,
        precededBy_append_of _ _ _ _ hspLS hspPG,
        precededBy_cons_skip _ _ _ _ rfl rfl,
        precededBy_append_of _ _ _ _ hhLS hhPG,
        precededBy_cons_skip _ _ _ _ rfl rfl]
      exact precededBy_cons_q _ _ _ _ rfl

/-!
## Characterizing the Phase B barrier
-/

/-- Whether a control message is one of the four `*Initialized` lane variants
that the Phase B barrier consumes. -/
def isInitMsg : ControlMessage → Bool
  | ControlMessage.ControlSenderInitialized _ => true
  | ControlMessage.ControlReceiverInitialized _ => true
  | ControlMessage.DataSenderInitialized _ => true
  | ControlMessage.DataReceiverInitialized _ => true
  | _ => false

/-- Node ids reported by `ControlSenderInitialized` messages of a list. -/
def controlSenderIds : List ControlMessage → Finset Nat
  | [] => ∅
  | ControlMessage.ControlSenderInitialized n :: rest =>
      insert n (controlSenderIds rest)
  | _ :: rest => controlSenderIds rest

/-- Node ids reported by `ControlReceiverInitialized` messages of a list. -/
def controlReceiverIds : List ControlMessage → Finset Nat
  | [] => ∅
  | ControlMessage.ControlReceiverInitialized n :: rest =>
      insert n (controlReceiverIds rest)
  | _ :: rest => controlReceiverIds rest

/-- Node ids reported by `DataSenderInitialized` messages of a list. -/
def dataSenderIds : List ControlMessage → Finset Nat
  | [] => ∅
  | ControlMessage.DataSenderInitialized n :: rest =>
      insert n (dataSenderIds rest)
  | _ :: rest => dataSenderIds rest

/-- Node ids reported by `DataReceiverInitialized` messages of a list. -/
def dataReceiverIds : List ControlMessage → Finset Nat
  | [] => ∅
  | ControlMessage.DataReceiverInitialized n :: rest =>
      insert n (dataReceiverIds rest)
  | _ :: rest => dataReceiverIds rest

/-- The Phase B state with the ids reported by a list of messages added to
each lane's set: the state the barrier holds after consuming the list. -/
def PhaseBState.accum (st : PhaseBState) (msgs : List ControlMessage) :
    PhaseBState :=
  { control_senders_initialized :=
      st.control_senders_initialized ∪ controlSenderIds msgs
    control_receivers_initialized :=
      st.control_receivers_initialized ∪ controlReceiverIds msgs
    data_senders_initialized :=
      st.data_senders_initialized ∪ dataSenderIds msgs
    data_receivers_initialized :=
      st.data_receivers_initialized ∪ dataReceiverIds msgs }

theorem PhaseBState.accum_nil (st : PhaseBState) : st.accum [] = st := by
  cases st
  simp [PhaseBState.accum, controlSenderIds, controlReceiverIds, dataSenderIds,
    dataReceiverIds]

theorem PhaseBState.complete_mono (st : PhaseBState) (msgs : List ControlMessage)
    (n : Nat) (h : st.complete n = true) : (st.accum msgs).complete n = true := by
  simp only [PhaseBState.complete, Bool.and_eq_true, decide_eq_true_eq] at h ⊢
  refine ⟨⟨⟨?_, ?_⟩, ?_⟩, ?_⟩ <;>
    exact le_trans (by tauto) (Finset.card_le_card Finset.subset_union_left)

theorem PhaseBState.step_none_iff (st : PhaseBState) (m : ControlMessage) :
    st.step m = none ↔ isInitMsg m = false := by
  cases m <;> simp [PhaseBState.step, isInitMsg]

theorem PhaseBState.step_accum (st st2 : PhaseBState) (m : ControlMessage)
    (rest : List ControlMessage) (h : st.step m = some st2) :
    st2.accum rest = st.accum (m :: rest) := by
  cases m with
  | AllOperatorsInitializedOnNode k => exact Option.noConfusion h
  | OperatorInitialized k => exact Option.noConfusion h
  | RunOperator k => exact Option.noConfusion h
  | ControlSenderInitialized k =>
      simp only [PhaseBState.step, Option.some.injEq] at h
      subst h
      simp [PhaseBState.accum, controlSenderIds, controlReceiverIds,
        dataSenderIds, dataReceiverIds, Finset.insert_union, Finset.union_insert]
  | ControlReceiverInitialized k =>
      simp only [PhaseBState.step, Option.some.injEq] at h
      subst h
      simp [PhaseBState.accum, controlSenderIds, controlReceiverIds,
        dataSenderIds, dataReceiverIds, Finset.insert_union, Finset.union_insert]
  | DataSenderInitialized k =>
      simp only [PhaseBState.step, Option.some.injEq] at h
      subst h
      simp [PhaseBState.accum, controlSenderIds, controlReceiverIds,
        dataSenderIds, dataReceiverIds, Finset.insert_union, Finset.union_insert]
  | DataReceiverInitialized k =>
      simp only [PhaseBState.step, Option.some.injEq] at h
      subst h
      simp [PhaseBState.accum, controlSenderIds, controlReceiverIds,
        dataSenderIds, dataReceiverIds, Finset.insert_union, Finset.union_insert]

/-- Over a stream of successfully yielded `*Initialized` messages, the Phase B
loop completes exactly when the accumulated state — seed plus every reported
id per lane — has all four sets at size `num_nodes`. -/
theorem waitCommLoop_init_iff (n : Nat) (msgs : List ControlMessage) :
    ∀ st : PhaseBState, (∀ m ∈ msgs, isInitMsg m = true) →
      ((∃ fin, waitCommLoop n st (msgs.map Except.ok) =
          PhaseBOutcome.completed fin) ↔
        (st.accum msgs).complete n = true) := by
  induction msgs with
  | nil =>
      intro st _
      rw [PhaseBState.accum_nil]
      cases hc : st.complete n <;> simp [waitCommLoop, hc]
  | cons m rest ih =>
      intro st h
      have hm : isInitMsg m = true := h m (List.mem_cons_self m rest)
      have hstep : ∃ st2, st.step m = some st2 := by
        cases hs : st.step m with
        | none => rw [(PhaseBState.step_none_iff st m).mp hs] at hm; exact absurd hm (by simp)
        | some st2 => exact ⟨st2, rfl⟩
      rcases hstep with ⟨st2, hstep⟩
      cases hc : st.complete n with
      | true =>
          constructor
          · intro _
            exact PhaseBState.complete_mono st (m :: rest) n hc
          · intro _
            exact ⟨st, by simp [waitCommLoop, hc]⟩
      | false =>
          have hrec : waitCommLoop n st ((m :: rest).map Except.ok) =
              waitCommLoop n st2 (rest.map Except.ok) := by
            simp [waitCommLoop, hc, hstep]
          rw [hrec, ← PhaseBState.step_accum st st2 m rest hstep]
          exact ih st2 (fun x hx => h x (List.mem_cons_of_mem m hx))

/-- **C1** — Phase B barrier: over a stream of yielded `*Initialized`
messages, `wait_for_communication_layer_initialized` returns `Ok` exactly
when each of the four sets — seeded with `self.id` and extended with every
reported node id of its lane — reaches cardinality
`N = config.data_addresses.len()`. -/
theorem c1_phase_b_barrier (node : Node) (raw : List ControlMessage)
    (h : ∀ m ∈ raw, isInitMsg m = true) :
    (∃ fin, node.wait_for_communication_layer_initialized (raw.map Except.ok) =
        PhaseBOutcome.completed fin) ↔
      (node.config.data_addresses.length ≤
          (insert node.id (controlSenderIds raw)).card ∧
        node.config.data_addresses.length ≤
          (insert node.id (controlReceiverIds raw)).card ∧
        node.config.data_addresses.length ≤
          (insert node.id (dataSenderIds raw)).card ∧
        node.config.data_addresses.length ≤
          (insert node.id (dataReceiverIds raw)).card) := by
  unfold Node.wait_for_communication_layer_initialized
  rw [waitCommLoop_init_iff node.config.data_addresses.length raw
    (PhaseBState.init node.id) h]
  simp [PhaseBState.accum, PhaseBState.init, PhaseBState.complete,
    Finset.insert_eq, Bool.and_eq_true, decide_eq_true_eq, and_assoc]

/-- Witness for C1: `N = 2`, `self.id = 0`, node 1 reports on all four
lanes, and the barrier completes. -/
theorem c1_phase_b_barrier_witness :
    ∃ fin, (Node.new (Configuration.mk 0 ["a", "b"] ["a", "b"] 1 none)).wait_for_communication_layer_initialized
      ([ControlMessage.ControlSenderInitialized 1,
        ControlMessage.ControlReceiverInitialized 1,
        ControlMessage.DataSenderInitialized 1,
        ControlMessage.DataReceiverInitialized 1].map Except.ok) =
      PhaseBOutcome.completed fin :=
  (c1_phase_b_barrier _ _ (by decide)).mpr (by decide)

/-- If the barrier is still incomplete and the handler yields a message that
is not one of the four `*Initialized` lane variants, the loop hits
`_ => unreachable!()` and panics. -/
theorem waitCommLoop_panics (n : Nat) (pre : List ControlMessage)
    (m : ControlMessage) (post : List (Except CommunicationError ControlMessage)) :
    ∀ st : PhaseBState, (∀ x ∈ pre, isInitMsg x = true) → isInitMsg m = false →
      (st.accum pre).complete n = false →
      waitCommLoop n st (pre.map Except.ok ++ Except.ok m :: post) =
        PhaseBOutcome.panicked := by
  induction pre with
  | nil =>
      intro st _ hm hinc
      rw [PhaseBState.accum_nil] at hinc
      have hstep : st.step m = none := (PhaseBState.step_none_iff st m).mpr hm
      simp [waitCommLoop, hinc, hstep]
  | cons x rest ih =>
      intro st h hm hinc
      have hx : isInitMsg x = true := h x (List.mem_cons_self x rest)
      have hstep : ∃ st2, st.step x = some st2 := by
        cases hs : st.step x with
        | none =>
            rw [(PhaseBState.step_none_iff st x).mp hs] at hx
            exact absurd hx (by simp)
        | some st2 => exact ⟨st2, rfl⟩
      rcases hstep with ⟨st2, hstep⟩
      have hc : st.complete n = false := by
        cases hc2 : st.complete n with
        | false => rfl
        | true =>
            rw [PhaseBState.complete_mono st (x :: rest) n hc2] at hinc
            exact absurd hinc (by simp)
      have hinc2 : (st2.accum rest).complete n = false := by
        rw [PhaseBState.step_accum st st2 x rest hstep]
        exact hinc
      have hrec : waitCommLoop n st
          (Except.ok x :: (rest.map Except.ok ++ Except.ok m :: post)) =
          waitCommLoop n st2 (rest.map Except.ok ++ Except.ok m :: post) := by
        simp [waitCommLoop, hc, hstep]
      rw [List.map_cons, List.cons_append, hrec]
      exact ih st2 (fun y hy => h y (List.mem_cons_of_mem x hy)) hm hinc2

/-- **C3 (amended)** — A control message that is not one of the four
`*Initialized` variants, yielded while the Phase B barrier is still
incomplete, makes the node panic at the loop's `_ => unreachable!()` arm; it
does not return an error (no `ProtocolViolation` error kind exists in
`CommunicationError`). -/
theorem c3_unexpected_message_panics (node : Node) (pre : List ControlMessage)
    (m : ControlMessage) (post : List (Except CommunicationError ControlMessage))
    (hpre : ∀ x ∈ pre, isInitMsg x = true) (hm : isInitMsg m = false)
    (hinc : ((PhaseBState.init node.id).accum pre).complete
        node.config.data_addresses.length = false) :
    node.wait_for_communication_layer_initialized
        (pre.map Except.ok ++ Except.ok m :: post) = PhaseBOutcome.panicked := by
  unfold Node.wait_for_communication_layer_initialized
  exact waitCommLoop_panics _ pre m post _ hpre hm hinc

/-- Witness for the amended C3: `N = 3`, after a single lane report a
`RunOperator` message arrives and the node panics. -/
theorem c3_unexpected_message_panics_witness :
    (Node.new (Configuration.mk 0 ["a", "b", "c"] ["a", "b", "c"] 2 none)).wait_for_communication_layer_initialized
      ([ControlMessage.ControlSenderInitialized 1].map Except.ok ++
        Except.ok (ControlMessage.RunOperator 7) :: []) =
      PhaseBOutcome.panicked :=
  c3_unexpected_message_panics _ _ _ _ (by decide) (by decide) (by decide)

/-- Counterexample to C3 as stated: at `N = 2` with self id `0`, yielding the
non-`*Initialized` message `AllOperatorsInitializedOnNode(1)` during Phase B
makes the node panic; the barrier does not return any error value, so startup
is not aborted with a `ProtocolViolation` error. -/
theorem c3_counterexample :
    (Node.new (Configuration.mk 0 ["a", "b"] ["a", "b"] 1 none)).wait_for_communication_layer_initialized
      [Except.ok (ControlMessage.AllOperatorsInitializedOnNode 1)] =
      PhaseBOutcome.panicked ∧
    ∀ e : CommunicationError,
      (Node.new (Configuration.mk 0 ["a", "b"] ["a", "b"] 1 none)).wait_for_communication_layer_initialized
        [Except.ok (ControlMessage.AllOperatorsInitializedOnNode 1)] ≠
        PhaseBOutcome.failed e := by
  constructor
  · decide
  · intro e
    cases e <;> decide

/-!
## Characterizing the Phase E loop
-/

theorem waitLocalOpsLoop_skip (num : Nat) (s : Finset Nat)
    (r : Option ControlMessage) (rest : List (Option ControlMessage))
    (hc : ¬ num ≤ s.card)
    (hr : ∀ op, r ≠ some (ControlMessage.OperatorInitialized op)) :
    waitLocalOpsLoop num s (r :: rest) = waitLocalOpsLoop num s rest := by
  rcases r with _ | msg
  · simp [waitLocalOpsLoop, hc]
  · cases msg with
    | OperatorInitialized op => exact absurd rfl (hr op)
    | AllOperatorsInitializedOnNode k => simp [waitLocalOpsLoop, hc]
    | RunOperator k => simp [waitLocalOpsLoop, hc]
    | ControlSenderInitialized k => simp [waitLocalOpsLoop, hc]
    | ControlReceiverInitialized k => simp [waitLocalOpsLoop, hc]
    | DataSenderInitialized k => simp [waitLocalOpsLoop, hc]
    | DataReceiverInitialized k => simp [waitLocalOpsLoop, hc]

theorem operatorIdsIn_skip (r : Option ControlMessage)
    (rest : List (Option ControlMessage))
    (hr : ∀ op, r ≠ some (ControlMessage.OperatorInitialized op)) :
    operatorIdsIn (r :: rest) = operatorIdsIn rest := by
  rcases r with _ | msg
  · rfl
  · cases msg with
    | OperatorInitialized op => exact absurd rfl (hr op)
    | AllOperatorsInitializedOnNode k => rfl
    | RunOperator k => rfl
    | ControlSenderInitialized k => rfl
    | ControlReceiverInitialized k => rfl
    | DataSenderInitialized k => rfl
    | DataReceiverInitialized k => rfl

/-- The Phase E loop returns exactly when the distinct operator ids reported
so far (the running set plus those in the remaining input) cover
`num_local_operators`. -/
theorem waitLocalOpsLoop_iff (num : Nat) (l : List (Option ControlMessage)) :
    ∀ s : Finset Nat,
      (waitLocalOpsLoop num s l = some () ↔
        num ≤ (s ∪ operatorIdsIn l).card) := by
  induction l with
  | nil =>
      intro s
      by_cases hc : num ≤ s.card <;>
        simp [waitLocalOpsLoop, hc, operatorIdsIn]
  | cons r rest ih =>
      intro s
      by_cases hc : num ≤ s.card
      · have h1 : waitLocalOpsLoop num s (r :: rest) = some () := by
          rcases r with _ | msg
          · simp [waitLocalOpsLoop, hc]
          · cases msg <;> simp [waitLocalOpsLoop, hc]
        simp only [h1, true_iff]
        exact le_trans hc (Finset.card_le_card Finset.subset_union_left)
      · by_cases hop : ∃ op, r = some (ControlMessage.OperatorInitialized op)
        · rcases hop with ⟨op, rfl⟩
          have h1 : waitLocalOpsLoop num s
              (some (ControlMessage.OperatorInitialized op) :: rest) =
              waitLocalOpsLoop num (insert op s) rest := by
            simp [waitLocalOpsLoop, hc]
          rw [h1, ih (insert op s)]
          have h2 : operatorIdsIn
              (some (ControlMessage.OperatorInitialized op) :: rest) =
              insert op (operatorIdsIn rest) := rfl
          rw [h2, Finset.insert_union, Finset.union_insert]
        · push_neg at hop
          rw [waitLocalOpsLoop_skip num s r rest hc hop, ih s,
            operatorIdsIn_skip r rest hop]

/-- **C9** — `wait_for_local_operators_initialized` returns iff the input
stream carries at least `num_local_operators` distinct ids inside
`OperatorInitialized` messages; every other `recv` result (another variant or
a closed-channel `None`) is discarded, and with fewer distinct ids the loop
never returns. -/
theorem c9_phase_e_loop (node : Node)
    (recv_results : List (Option ControlMessage)) (num_local_operators : Nat) :
    (node.wait_for_local_operators_initialized recv_results
        num_local_operators = some () ↔
      num_local_operators ≤ (operatorIdsIn recv_results).card) ∧
    (node.wait_for_local_operators_initialized recv_results
        num_local_operators = none ↔
      (operatorIdsIn recv_results).card < num_local_operators) := by
  have h := waitLocalOpsLoop_iff num_local_operators recv_results ∅
  rw [Finset.empty_union] at h
  unfold Node.wait_for_local_operators_initialized
  cases hres : waitLocalOpsLoop num_local_operators ∅ recv_results with
  | none =>
      rw [hres] at h
      have hlt : (operatorIdsIn recv_results).card < num_local_operators := by
        rcases Nat.lt_or_ge (operatorIdsIn recv_results).card
            num_local_operators with hlt | hge
        · exact hlt
        · exact absurd (h.mpr hge) (by simp)
      constructor
      · simp
        omega
      · simp [hlt]
  | some u =>
      cases u
      rw [hres] at h
      have hle : num_local_operators ≤ (operatorIdsIn recv_results).card :=
        h.mp rfl
      constructor
      · simp [hle]
      · simp
        omega

/-!
## Characterizing the Phase G barrier
-/

/-- Node ids carried by the `Ok` entries of a Phase G input stream. -/
def okNodeIds : List (Except CommunicationError NodeId) → Finset Nat
  | [] => ∅
  | Except.ok n :: rest => insert n (okNodeIds rest)
  | Except.error _ :: rest => okNodeIds rest

theorem okNodeIds_mem (msgs : List (Except CommunicationError NodeId)) (i : Nat)
    (h : i ∈ okNodeIds msgs) : Except.ok i ∈ msgs := by
  induction msgs with
  | nil => simp [okNodeIds] at h
  | cons r rest ih =>
      cases r with
      | ok n =>
          simp only [okNodeIds] at h
          rcases Finset.mem_insert.mp h with rfl | h2
          · exact List.mem_cons_self _ _
          · exact List.mem_cons_of_mem _ (ih h2)
      | error e =>
          simp only [okNodeIds] at h
          exact List.mem_cons_of_mem _ (ih h)

/-- When the Phase G loop completes, its final set contains only the seed and
ids carried by consumed `Ok` messages, and has reached size `num_nodes`. -/
theorem waitAllOpsLoop_completed (n : Nat)
    (msgs : List (Except CommunicationError NodeId)) :
    ∀ init s : Finset Nat,
      waitAllOpsLoop n init msgs = PhaseGOutcome.completed s →
      s ⊆ init ∪ okNodeIds msgs ∧ n ≤ s.card := by
  induction msgs with
  | nil =>
      intro init s h
      by_cases hc : n ≤ init.card
      · simp only [waitAllOpsLoop, hc, if_true, PhaseGOutcome.completed.injEq] at h
        subst h
        exact ⟨Finset.subset_union_left, hc⟩
      · simp [waitAllOpsLoop, hc] at h
  | cons r rest ih =>
      intro init s h
      by_cases hc : n ≤ init.card
      · simp only [waitAllOpsLoop, hc, if_true, PhaseGOutcome.completed.injEq] at h
        subst h
        exact ⟨Finset.subset_union_left, hc⟩
      · cases r with
        | ok k =>
            have h2 : waitAllOpsLoop n (insert k init) rest =
                PhaseGOutcome.completed s := by
              simpa [waitAllOpsLoop, hc] using h
            obtain ⟨hsub, hcard⟩ := ih (insert k init) s h2
            refine ⟨?_, hcard⟩
            intro x hx
            have hx2 := hsub hx
            rw [Finset.insert_union] at hx2
            simp only [okNodeIds]
            rw [Finset.union_insert]
            exact hx2
        | error e => simp [waitAllOpsLoop, hc] at h

/-- **C4 (amended)** — Phase G coverage, under the protocol assumptions that
`self.id` and every reported node id lie in `[0, N)`: if
`wait_for_all_operators_initialized` completes, every peer in `[0, N)` other
than `self.id` has reported `AllOperatorsInitializedOnNode` at least once in
the input stream. (Without the range assumption the barrier can complete
without hearing from every peer; see the counterexample.) -/
theorem c4_phase_g_coverage (node : Node)
    (msgs : List (Except CommunicationError NodeId)) (s : Finset Nat)
    (hself : node.id < node.config.data_addresses.length)
    (hids : ∀ i, Except.ok i ∈ msgs → i < node.config.data_addresses.length)
    (hrun : node.wait_for_all_operators_initialized msgs =
      PhaseGOutcome.completed s) :
    ∀ k, k < node.config.data_addresses.length → k ≠ node.id →
      Except.ok k ∈ msgs := by
  obtain ⟨hsub, hcard⟩ :=
    waitAllOpsLoop_completed node.config.data_addresses.length msgs
      {node.id} s hrun
  have hsubR : s ⊆ Finset.range node.config.data_addresses.length := by
    intro x hx
    rcases Finset.mem_union.mp (hsub hx) with hx1 | hx2
    · rw [Finset.mem_singleton] at hx1
      subst hx1
      exact Finset.mem_range.mpr hself
    · exact Finset.mem_range.mpr (hids x (okNodeIds_mem msgs x hx2))
  have heq : s = Finset.range node.config.data_addresses.length :=
    Finset.eq_of_subset_of_card_le hsubR
      (by rw [Finset.card_range]; exact hcard)
  intro k hk hkid
  have hks : k ∈ s := by rw [heq]; exact Finset.mem_range.mpr hk
  rcases Finset.mem_union.mp (hsub hks) with h1 | h2
  · rw [Finset.mem_singleton] at h1
    exact absurd h1 hkid
  · exact okNodeIds_mem msgs k h2

/-- Witness for the amended C4: `N = 2`, `self.id = 0`, peer `1` reports and
the barrier completes having heard from it. -/
theorem c4_phase_g_coverage_witness :
    Except.ok 1 ∈ [(Except.ok 1 : Except CommunicationError NodeId)] :=
  c4_phase_g_coverage (Node.new (Configuration.mk 0 ["a", "b"] ["a", "b"] 1 none))
    [Except.ok 1] (insert 1 {0}) (by decide)
    (by
      intro i hi
      simp only [List.mem_singleton, Except.ok.injEq] at hi
      subst hi
      decide)
    (by decide) 1 (by decide) (by decide)

/-- Counterexample to C4 as stated: at `N = 2` with `self.id = 0`, a single
message reporting the out-of-range id `7` completes the barrier (the loop
inserts ids without validation, and `{0, 7}` reaches cardinality 2), yet
`AllOperatorsInitializedOnNode(1)` was never received. -/
theorem c4_counterexample :
    (Node.new (Configuration.mk 0 ["a", "b"] ["a", "b"] 1 none)).wait_for_all_operators_initialized
        [Except.ok 7] = PhaseGOutcome.completed (insert 7 {0}) ∧
    Except.ok 1 ∉ [(Except.ok 7 : Except CommunicationError NodeId)] := by
  constructor
  · decide
  · intro hmem
    simp at hmem

/-- Witness for C5: an `N = 1` node with no local operators reaches `Ok` and
sets the latch exactly once, and a wait loop observing `[false, true]`
returns having seen `true`. -/
theorem c5_run_async_returns_after_latch_witness :
    ((Node.new (Configuration.mk 0 ["a"] ["a"] 1 none)).run_operators
        (RunOperatorsInput.mk [] true [] [] none (Except.ok ()) [] [])).1.countP
      isLatchSetEvent = 1 ∧
    true ∈ [false, true] := by
  constructor
  · exact (c5_run_async_returns_after_latch
      (Node.new (Configuration.mk 0 ["a"] ["a"] 1 none))
      (RunOperatorsInput.mk [] true [] [] none (Except.ok ()) [] [])
      [false, true] (Configuration.mk 0 ["a"] ["a"] 1 none)).2.2.2.1 (by decide)
  · exact (c5_run_async_returns_after_latch
      (Node.new (Configuration.mk 0 ["a"] ["a"] 1 none))
      (RunOperatorsInput.mk [] true [] [] none (Except.ok ()) [] [])
      [false, true] (Configuration.mk 0 ["a"] ["a"] 1 none)).2.2.2.2.2.2 (by decide)

/-!
## Supervision (C6) and the remaining claims
-/

theorem selectFirst_mem (branches : List FutId) (cs : List Completion)
    (f : FutId) (h : selectFirst branches cs = some f) : f ∈ branches := by
  induction cs with
  | nil => simp [selectFirst] at h
  | cons c rest ih =>
      by_cases hm : completionMatches branches c = true
      · have hsome : some c.fut = some f := by simpa [selectFirst, hm] using h
        have hf : c.fut = f := by injection hsome
        subst hf
        have hcont : branches.contains c.fut = true := by
          simp only [completionMatches, Bool.and_eq_true] at hm
          exact hm.1
        exact List.mem_of_elem_eq_true hcont
      · have h2 : selectFirst branches (c :: rest) =
            selectFirst branches rest := by
          simp [selectFirst, hm]
        rw [h2] at h
        exact ih h

/-- **C6 (amended)** — Supervision in `async_run`: with
`num_nodes = data_addresses.len() ≤ 1` the four transport-worker results are
joined first — an error among them is only logged as non-fatal and does not
influence the subsequent race, which is over `run_operators` and the shutdown
signal alone; with `num_nodes > 1` all six futures are raced and the run ends
at the first completion that matches its `select!` pattern (an `Err` from a
worker or operator future, or the shutdown signal); an `Ok` completion of a
non-shutdown future is discarded and the race continues. -/
theorem c6_supervision (node : Node) (w w2 : WorkerResults)
    (cs : List Completion) :
    (node.config.data_addresses.length ≤ 1 →
      ((node.async_run_supervision w cs).logged_nonfatal_comm_error =
        (match tryJoinWorkers w with
          | Except.error _ => true
          | Except.ok _ => false) ∧
       (node.async_run_supervision w cs).winner =
         selectFirst [FutId.ops, FutId.shutdown_signal] cs ∧
       (node.async_run_supervision w cs).winner =
         (node.async_run_supervision w2 cs).winner ∧
       ∀ f, (node.async_run_supervision w cs).winner = some f →
         f = FutId.ops ∨ f = FutId.shutdown_signal)) ∧
    (1 < node.config.data_addresses.length →
      ((node.async_run_supervision w cs).winner =
        selectFirst [FutId.data_senders, FutId.data_receivers,
          FutId.control_senders, FutId.control_receivers, FutId.ops,
          FutId.shutdown_signal] cs ∧
       ∀ c : Completion, c.fut ≠ FutId.shutdown_signal → c.is_err = false →
         completionMatches [FutId.data_senders, FutId.data_receivers,
           FutId.control_senders, FutId.control_receivers, FutId.ops,
           FutId.shutdown_signal] c = false)) := by
  constructor
  · intro hle
    refine ⟨?_, ?_, ?_, ?_⟩
    · simp [Node.async_run_supervision, hle]
    · simp [Node.async_run_supervision, hle]
    · simp [Node.async_run_supervision, hle]
    · intro f hf
      simp only [Node.async_run_supervision, hle, if_true] at hf
      have := selectFirst_mem _ _ _ hf
      simpa using this
  · intro hgt
    have hle : ¬ node.config.data_addresses.length ≤ 1 := by omega
    refine ⟨?_, ?_⟩
    · simp [Node.async_run_supervision, hle]
    · intro c hfut herr
      simp only [completionMatches, herr, Bool.or_false, Bool.and_eq_false_iff]
      right
      simpa using hfut

/-- Witness for the amended C6: at `N = 1` an operator-future error wins the
restricted race, and at `N = 2` the matching characterization holds for a
shutdown completion. -/
theorem c6_supervision_witness :
    ((Node.new (Configuration.mk 0 ["a"] ["a"] 1 none)).async_run_supervision
        (WorkerResults.mk (Except.ok ()) (Except.ok ()) (Except.ok ())
          (Except.ok ())) [Completion.mk FutId.ops true]).winner =
      selectFirst [FutId.ops, FutId.shutdown_signal]
        [Completion.mk FutId.ops true] ∧
    ((Node.new (Configuration.mk 0 ["a", "b"] ["a", "b"] 1 none)).async_run_supervision
        (WorkerResults.mk (Except.ok ()) (Except.ok ()) (Except.ok ())
          (Except.ok ())) [Completion.mk FutId.shutdown_signal false]).winner =
      selectFirst [FutId.data_senders, FutId.data_receivers,
        FutId.control_senders, FutId.control_receivers, FutId.ops,
        FutId.shutdown_signal] [Completion.mk FutId.shutdown_signal false] := by
  constructor
  · exact ((c6_supervision (Node.new (Configuration.mk 0 ["a"] ["a"] 1 none))
      (WorkerResults.mk (Except.ok ()) (Except.ok ()) (Except.ok ())
        (Except.ok ()))
      (WorkerResults.mk (Except.ok ()) (Except.ok ()) (Except.ok ())
        (Except.ok ()))
      [Completion.mk FutId.ops true]).1 (by decide)).2.1
  · exact ((c6_supervision (Node.new (Configuration.mk 0 ["a", "b"] ["a", "b"] 1 none))
      (WorkerResults.mk (Except.ok ()) (Except.ok ()) (Except.ok ())
        (Except.ok ()))
      (WorkerResults.mk (Except.ok ()) (Except.ok ()) (Except.ok ())
        (Except.ok ()))
      [Completion.mk FutId.shutdown_signal false]).2 (by decide)).1

/-- Counterexample to C6 as stated: at `N = 2`, the data-sender future
completing first with `Ok` does not end the run — the `Err(e) = fut` pattern
does not match, the branch is disabled, and the race continues with no
winner. -/
theorem c6_counterexample :
    ((Node.new (Configuration.mk 0 ["a", "b"] ["a", "b"] 1 none)).async_run_supervision
        (WorkerResults.mk (Except.ok ()) (Except.ok ()) (Except.ok ())
          (Except.ok ())) [Completion.mk FutId.data_senders false]).winner =
      none ∧
    [Completion.mk FutId.data_senders false] ≠ [] := by
  constructor
  · rfl
  · simp

/-- **C7** — `NodeHandle::shutdown`: the `try_send` on the capacity-1
shutdown channel is non-blocking and its error is discarded whatever the
channel state (empty, already full, or closed), the call never panics, and
its result is `Ok` exactly when the joined node thread exited without
panicking; a second `shutdown` on the resulting channel state returns the
same result. -/
theorem c7_shutdown_idempotent (ch : ShutdownChannel) (jr : ThreadJoinResult) :
    ((NodeHandle.shutdown ch jr).2 = Except.ok () ↔ jr = Except.ok ()) ∧
    (NodeHandle.shutdown ch jr).2 = jr ∧
    (NodeHandle.shutdown (NodeHandle.shutdown ch jr).1 jr).2 =
      (NodeHandle.shutdown ch jr).2 := by
  exact ⟨Iff.rfl, rfl, rfl⟩

/-- **C8** — Error-kind classification: the `TrySendError` conversion yields
`NoCapacity` exactly for a full channel and `Disconnected` exactly for a
closed one, and both blocking-send conversions always yield `Disconnected`. -/
theorem c8_error_conversions {T : Type} (e : TrySendError T) (se : SendError T)
    (sse : StdSendError T) :
    (CommunicationError.from_try_send_error e = CommunicationError.NoCapacity ↔
      e.isFull = true) ∧
    (CommunicationError.from_try_send_error e = CommunicationError.Disconnected ↔
      e.isClosed = true) ∧
    CommunicationError.from_send_error se = CommunicationError.Disconnected ∧
    CommunicationError.from_std_send_error sse =
      CommunicationError.Disconnected := by
  refine ⟨?_, ?_, rfl, rfl⟩ <;>
    cases e <;>
      simp [CommunicationError.from_try_send_error, TrySendError.isFull,
        TrySendError.isClosed]

/-- **C10** — `N` derivation: `Node::new` accepts every configuration without
validation (`id = index`, the configuration stored as-is), both barrier
wrappers and the supervision branch compute `num_nodes` as
`data_addresses.len()`, and none of them reads `control_addresses` — the
results are unchanged when `control_addresses` is replaced arbitrarily. -/
theorem c10_num_nodes_from_data_addresses (cfg : Configuration)
    (other : List String)
    (msgsB : List (Except CommunicationError ControlMessage))
    (msgsG : List (Except CommunicationError NodeId))
    (w : WorkerResults) (cs : List Completion) :
    (Node.new cfg).config = cfg ∧
    (Node.new cfg).id = cfg.index ∧
    (Node.new cfg).wait_for_communication_layer_initialized msgsB =
      waitCommLoop cfg.data_addresses.length (PhaseBState.init cfg.index)
        msgsB ∧
    (Node.new cfg).wait_for_all_operators_initialized msgsG =
      waitAllOpsLoop cfg.data_addresses.length {cfg.index} msgsG ∧
    (Node.new cfg).async_run_supervision w cs =
      (Node.new (Configuration.mk cfg.index other cfg.data_addresses
        cfg.num_worker_threads cfg.graph_filename)).async_run_supervision w cs ∧
    (Node.new cfg).wait_for_communication_layer_initialized msgsB =
      (Node.new (Configuration.mk cfg.index other cfg.data_addresses
        cfg.num_worker_threads cfg.graph_filename)).wait_for_communication_layer_initialized
        msgsB ∧
    (Node.new cfg).wait_for_all_operators_initialized msgsG =
      (Node.new (Configuration.mk cfg.index other cfg.data_addresses
        cfg.num_worker_threads cfg.graph_filename)).wait_for_all_operators_initialized
        msgsG :=
  ⟨rfl, rfl, rfl, rfl, rfl, rfl, rfl⟩
